import Mathlib

/-!
Verification development for the sqlit hierarchical UI state machine
(`src/sqlit/state_machine.py`) and the leader-key dispatcher
(`src/sqlit/ui/mixins/ui_navigation.py`).

The Python classes are shallowly embedded: a state's data (`_actions`,
`_forbidden`, `_display_order`, `_right_bindings`) becomes `StateData`;
the parent chain of a state object becomes a `List StateNode` whose head
is the state itself and whose tail is the chain of its ancestors; virtual
dispatch of the overridden methods (`check_action`, `get_display_bindings`,
`is_active`) is modelled by matching on a `StateKind` tag identifying the
concrete Python class.  The application object (`SSMSTUI`) is replaced by
a read-only snapshot `App` holding exactly the fields the guards and
activation predicates consult.  The leader command registry, which Python
code re-reads from the external keymap module on each call, is passed
explicitly as a `List LeaderCommand` argument.
-/

namespace Sqlit

/-- Vim modes of the query editor (`widgets.VimMode`). -/
inductive VimMode where
  | NORMAL
  | INSERT
deriving DecidableEq, Repr

/-- Kinds of tree node data under the cursor (`ui.tree_nodes`).  A
`connection` node carries the name of its config when the config object is
truthy and has a name. -/
inductive NodeKind where
  | connection (config : Option String)
  | table
  | view
  | folder
  | database
  | schemaNode
  | other
deriving DecidableEq, Repr

/-- Read-only snapshot of the fields of the `SSMSTUI` application object
consulted by activation predicates and guards. -/
structure App where
  modal_active : Bool
  leader_pending : Bool
  tree_focus : Bool
  cursor_node : Option NodeKind
  query_focus : Bool
  vim_mode : VimMode
  results_focus : Bool
  current_connection : Bool
  current_config_name : Option String
  query_executing : Bool
  last_result_columns : List String

/-- `ActionResult` from `state_machine.py`. -/
inductive ActionResult where
  | ALLOWED
  | FORBIDDEN
  | UNHANDLED
deriving DecidableEq, Repr

/-- `DisplayBinding` dataclass. -/
structure DisplayBinding where
  key : String
  label : String
  action : String
deriving DecidableEq, Repr

/-- Python truthiness of an optional string: `None` and the empty string
are falsy. -/
def strTruthy : Option String → Bool
  | none => false
  | some s => !s.isEmpty

/-- Python `a or b` on optional strings: the first operand when truthy,
otherwise the second. -/
def pyOr (a b : Option String) : Option String :=
  if strTruthy a then a else b

/-- `ActionSpec` dataclass: an action rule owned by one state. -/
structure ActionSpec where
  guard : Option (App → Bool)
  display_key : Option String
  display_label : Option String
  help_key : Option String
  help_description : Option String

/-- `ActionSpec.is_allowed`: absence of a guard means always allowed. -/
def ActionSpec.is_allowed (spec : ActionSpec) (app : App) : Bool :=
  match spec.guard with
  | none => true
  | some g => g app

/-- `ActionSpec.get_display_binding`: a binding is rendered only when both
display fields are truthy. -/
def ActionSpec.get_display_binding (spec : ActionSpec) (action_name : String) :
    Option DisplayBinding :=
  if strTruthy spec.display_key && strTruthy spec.display_label then
    some ⟨spec.display_key.getD "", spec.display_label.getD "", action_name⟩
  else
    none

/-- Mutable data owned by one `State` object: the rule table, the forbidden
set and the two display ordering lists. -/
structure StateData where
  actions : String → Option ActionSpec
  forbidden : List String
  display_order : List String
  right_bindings : List String

/-- The freshly constructed state data (before `_setup_actions` runs). -/
def StateData.empty : StateData :=
  ⟨fun _ => none, [], [], []⟩

/-- `State.allows`: store the spec under the action name (overwriting any
earlier registration) and, when a display pair is given, append the name to
the left or right ordering list. -/
def StateData.allows (s : StateData) (action_name : String)
    (guard : Option (App → Bool)) (key label : Option String) (right : Bool)
    (help help_key : Option String) : StateData :=
  let spec : ActionSpec := ⟨guard, key, label, pyOr help_key key, help⟩
  let s1 : StateData :=
    ⟨fun a => if a = action_name then some spec else s.actions a,
      s.forbidden, s.display_order, s.right_bindings⟩
  if strTruthy key && strTruthy label then
    if right then
      ⟨s1.actions, s1.forbidden, s1.display_order, s1.right_bindings ++ [action_name]⟩
    else
      ⟨s1.actions, s1.forbidden, s1.display_order ++ [action_name], s1.right_bindings⟩
  else
    s1

/-- `State.forbids`: add the names to the forbidden set. -/
def StateData.forbids (s : StateData) (action_names : List String) : StateData :=
  ⟨s.actions, s.forbidden ++ action_names, s.display_order, s.right_bindings⟩

/-- `LeaderCommand` dataclass: a command reachable via the leader key.
Its guard, when present, has already been resolved from the guard registry. -/
structure LeaderCommand where
  key : String
  action : String
  label : String
  category : String
  guard : Option (App → Bool)

/-- `LeaderCommand.binding_action`: the leader-prefixed action identifier. -/
def LeaderCommand.binding_action (c : LeaderCommand) : String :=
  "leader_" ++ c.action

/-- `LeaderCommand.is_allowed`. -/
def LeaderCommand.is_allowed (c : LeaderCommand) (app : App) : Bool :=
  match c.guard with
  | none => true
  | some g => g app

/-- `get_leader_binding_actions`, relative to an explicit registry. -/
def get_leader_binding_actions (reg : List LeaderCommand) : List String :=
  reg.map (fun c => c.binding_action)

/-- Tags identifying the concrete Python `State` subclasses, used to model
virtual dispatch of the overridden methods. -/
inductive StateKind where
  | root
  | modal_active
  | main_screen
  | leader_pending
  | tree_focused
  | tree_on_connection
  | tree_on_table
  | tree_on_folder
  | query_focused
  | query_normal
  | query_insert
  | results_focused
deriving DecidableEq, Repr

/-- One state object: its concrete class tag and its owned data. -/
structure StateNode where
  kind : StateKind
  data : StateData

/-- A state together with its ancestor chain: the head is the state itself,
the tail its parent chain (`[]` plays the role of a missing parent). -/
abbrev StateChain := List StateNode

/-- `LeaderPendingState.check_action`: resolve the current leader registry,
allow exactly the guard-passing leader binding actions plus the raw
`leader_key` action, and forbid everything else. -/
def leader_pending_check (reg : List LeaderCommand) (app : App)
    (action_name : String) : ActionResult :=
  if action_name ∈ get_leader_binding_actions reg then
    match reg.find? (fun c => c.binding_action == action_name) with
    | some cmd => if cmd.is_allowed app then .ALLOWED else .FORBIDDEN
    | none => .FORBIDDEN
  else if action_name == "leader_key" then .ALLOWED
  else .FORBIDDEN

/-- `State.check_action` with virtual dispatch: the `ModalActiveState` and
`LeaderPendingState` classes override the method wholesale; every other
class inherits the base implementation (forbid, then own rule, then
delegate to the parent, else unhandled). -/
def check_action (reg : List LeaderCommand) : StateChain → App → String → ActionResult
  | [], _, _ => .UNHANDLED
  | node :: rest, app, action_name =>
    match node.kind with
    | .modal_active =>
        if action_name == "quit" then .ALLOWED else .FORBIDDEN
    | .leader_pending => leader_pending_check reg app action_name
    | _ =>
        if action_name ∈ node.data.forbidden then .FORBIDDEN
        else
          match node.data.actions action_name with
          | some spec => if spec.is_allowed app then .ALLOWED else .FORBIDDEN
          | none => check_action reg rest app action_name

/-- The first loop of the base `State.get_display_bindings`: walk an
ordering list, emit the binding of every not-yet-seen, guard-passing entry
that renders a display binding, extending the seen set alongside. -/
def collect_own (actions : String → Option ActionSpec) (app : App) :
    List String → List String → List DisplayBinding →
    List DisplayBinding × List String
  | [], seen, acc => (acc, seen)
  | action_name :: rest, seen, acc =>
    if action_name ∈ seen then collect_own actions app rest seen acc
    else
      match actions action_name with
      | some spec =>
          if spec.is_allowed app then
            match spec.get_display_binding action_name with
            | some b => collect_own actions app rest (seen ++ [action_name]) (acc ++ [b])
            | none => collect_own actions app rest seen acc
          else collect_own actions app rest seen acc
      | none => collect_own actions app rest seen acc

/-- The parent-merging loop of `get_display_bindings`: append every parent
binding whose action has not been seen, extending the seen set. -/
def append_filtered : List DisplayBinding → List String → List DisplayBinding →
    List DisplayBinding × List String
  | [], seen, acc => (acc, seen)
  | b :: rest, seen, acc =>
    if b.action ∈ seen then append_filtered rest seen acc
    else append_filtered rest (seen ++ [b.action]) (acc ++ [b])

/-- The `is_connected` computation of `TreeOnConnectionState
.get_display_bindings` (and, equivalently, its `is_connected_to_this`
guard): connected, and the cursor connection's config names the current
config. -/
def is_connected_to_this (app : App) : Bool :=
  match app.cursor_node with
  | some (.connection cfg) =>
      app.current_connection &&
        (match cfg, app.current_config_name with
         | some cn, some curn => cn == curn
         | _, _ => false)
  | _ => false

/-- The `can_connect` guard of `TreeOnConnectionState`: on a connection
node, allowed when nothing is connected, or when the node's config names a
config different from the current one. -/
def can_connect (app : App) : Bool :=
  match app.cursor_node with
  | some (.connection cfg) =>
      if !app.current_connection then true
      else
        match cfg, app.current_config_name with
        | some cn, some curn => cn != curn
        | _, _ => false
  | _ => false

/-- `State.get_display_bindings` with virtual dispatch.  The base
implementation collects the state's own left then right entries and merges
the parent's, filtered by the seen action names; `ModalActiveState`,
`LeaderPendingState`, the three tree substates, the two query-mode states
and `ResultsFocusedState` override it as in the source. -/
def get_display_bindings : StateChain → App → List DisplayBinding × List DisplayBinding
  | [], _ => ([], [])
  | node :: rest, app =>
    match node.kind with
    | .modal_active => ([], [])
    | .leader_pending => ([], [⟨"...", "Waiting", "leader_pending"⟩])
    | .tree_on_connection =>
        let connected := is_connected_to_this app
        let first : List DisplayBinding :=
          if connected then [⟨"x", "Disconnect", "disconnect"⟩]
          else [⟨"enter", "Connect", "connect_selected"⟩]
        let left := first ++
          [⟨"n", "New", "new_connection"⟩, ⟨"e", "Edit", "edit_connection"⟩,
           ⟨"D", "Duplicate", "duplicate_connection"⟩, ⟨"d", "Delete", "delete_connection"⟩,
           ⟨"f", "Refresh", "refresh_tree"⟩]
        let seen := ["disconnect", "connect_selected", "new_connection",
          "edit_connection", "duplicate_connection", "delete_connection", "refresh_tree"]
        let pr := (get_display_bindings rest app).2
        (left, (append_filtered pr seen []).1)
    | .tree_on_table =>
        let left : List DisplayBinding :=
          [⟨"enter", "Columns", "toggle_node"⟩, ⟨"s", "Select TOP 100", "select_table"⟩,
           ⟨"f", "Refresh", "refresh_tree"⟩]
        let seen := ["toggle_node", "select_table", "refresh_tree"]
        let pr := (get_display_bindings rest app).2
        (left, (append_filtered pr seen []).1)
    | .tree_on_folder =>
        let left : List DisplayBinding :=
          [⟨"enter", "Expand", "toggle_node"⟩, ⟨"f", "Refresh", "refresh_tree"⟩]
        let seen := ["toggle_node", "refresh_tree"]
        let pr := (get_display_bindings rest app).2
        (left, (append_filtered pr seen []).1)
    | .query_normal =>
        let left : List DisplayBinding :=
          [⟨"i", "Insert Mode", "enter_insert_mode"⟩, ⟨"enter", "Execute", "execute_query"⟩,
           ⟨"d", "Clear", "clear_query"⟩, ⟨"n", "New", "new_query"⟩]
        let seen := ["enter_insert_mode", "execute_query", "clear_query", "new_query"]
        let pr := (get_display_bindings rest app).2
        (left, (append_filtered pr seen []).1)
    | .query_insert =>
        ([⟨"esc", "Normal Mode", "exit_insert_mode"⟩,
          ⟨"f5", "Execute", "execute_query_insert"⟩,
          ⟨"tab", "Autocomplete", "autocomplete_accept"⟩], [])
    | .results_focused =>
        let is_error := app.last_result_columns == ["Error"]
        let left : List DisplayBinding :=
          if is_error then
            [⟨"v", "View error", "view_cell"⟩, ⟨"y", "Copy error", "copy_cell"⟩]
          else
            [⟨"v", "View cell", "view_cell"⟩, ⟨"y", "Copy cell", "copy_cell"⟩,
             ⟨"Y", "Copy row", "copy_row"⟩, ⟨"a", "Copy all", "copy_results"⟩]
        let seen := ["view_cell", "copy_cell", "copy_row", "copy_results"]
        let pr := (get_display_bindings rest app).2
        (left, (append_filtered pr seen []).1)
    | _ =>
        let own_left := collect_own node.data.actions app node.data.display_order [] []
        let own_right := collect_own node.data.actions app node.data.right_bindings own_left.2 []
        let parent := get_display_bindings rest app
        let merged_left := append_filtered parent.1 own_right.2 own_left.1
        let merged_right := append_filtered parent.2 merged_left.2 own_right.1
        (merged_left.1, merged_right.1)

/-- `is_active` of each concrete state class, as a predicate on the
snapshot, dispatched on the class tag. -/
def is_active (k : StateKind) (app : App) : Bool :=
  match k with
  | .root => true
  | .modal_active => app.modal_active
  | .main_screen => !app.modal_active
  | .leader_pending => app.leader_pending
  | .tree_focused => app.tree_focus
  | .tree_on_connection =>
      app.tree_focus &&
        (match app.cursor_node with
         | some (.connection _) => true
         | _ => false)
  | .tree_on_table =>
      app.tree_focus &&
        (match app.cursor_node with
         | some .table => true
         | some .view => true
         | _ => false)
  | .tree_on_folder =>
      app.tree_focus &&
        (match app.cursor_node with
         | some .folder => true
         | some .database => true
         | some .schemaNode => true
         | _ => false)
  | .query_focused => app.query_focus
  | .query_normal => app.query_focus && decide (app.vim_mode = .NORMAL)
  | .query_insert => app.query_focus && decide (app.vim_mode = .INSERT)
  | .results_focused => app.results_focus

/-- A chain is active when the state at its head is active. -/
def chain_is_active (s : StateChain) (app : App) : Bool :=
  match s with
  | [] => false
  | node :: _ => is_active node.kind app

/-- `RootState._setup_actions`. -/
def root_data : StateData :=
  (((StateData.empty.allows "quit" none none none false (some "Quit") (some "^q")
    ).allows "show_help" none none none false (some "Show this help") (some "?")
    ).allows "leader_key" none none none false (some "Commands menu") (some "<space>"))

/-- `ModalActiveState._setup_actions` registers nothing. -/
def modal_active_data : StateData := StateData.empty

/-- `MainScreenState._setup_actions`. -/
def main_screen_data : StateData :=
  ((((((((StateData.empty.allows "focus_explorer" none none none false
      (some "Focus Explorer") (some "e")
    ).allows "focus_query" none none none false (some "Focus Query") (some "q")
    ).allows "focus_results" none none none false (some "Focus Results") (some "r")
    ).allows "toggle_fullscreen" none none none false (some "Toggle fullscreen") (some "f")
    ).allows "show_help" none none none false none none
    ).allows "change_theme" none none none false none none
    ).allows "cancel_operation" none none none false none none
    ).allows "leader_key" none (some "<space>") (some "Commands") true none none)

/-- `LeaderPendingState._setup_actions` registers nothing (leader actions
are resolved dynamically in its `check_action`). -/
def leader_pending_data : StateData := StateData.empty

/-- `TreeFocusedState._setup_actions`. -/
def tree_focused_data : StateData :=
  (((((StateData.empty.allows "new_connection" none (some "n") (some "New") false
      (some "New connection") none
    ).allows "refresh_tree" none (some "f") (some "Refresh") false
      (some "Refresh tree") (some "R/f")
    ).allows "collapse_tree" none none none false (some "Collapse all") (some "z")
    ).allows "vim_down" none none none false (some "Move down") (some "j")
    ).allows "vim_up" none none none false (some "Move up") (some "k"))

/-- `TreeOnConnectionState._setup_actions`. -/
def tree_on_connection_data : StateData :=
  (((((StateData.empty.allows "connect_selected" (some can_connect) (some "enter")
      (some "Connect") false (some "Connect/Expand/Columns") none
    ).allows "disconnect" (some is_connected_to_this) (some "x") (some "Disconnect")
      false (some "Disconnect") none
    ).allows "edit_connection" none (some "e") (some "Edit") false
      (some "Edit connection") none
    ).allows "delete_connection" none (some "d") (some "Delete") false
      (some "Delete connection") none
    ).allows "duplicate_connection" none (some "D") (some "Duplicate") false
      (some "Duplicate connection") none)

/-- `TreeOnTableState._setup_actions`. -/
def tree_on_table_data : StateData :=
  (StateData.empty.allows "select_table" none (some "s") (some "Select TOP 100") false
    (some "Select TOP 100 (table/view)") none)

/-- `TreeOnFolderState._setup_actions` registers nothing. -/
def tree_on_folder_data : StateData := StateData.empty

/-- `QueryFocusedState._setup_actions` registers nothing. -/
def query_focused_data : StateData := StateData.empty

/-- `QueryNormalModeState._setup_actions`. -/
def query_normal_data : StateData :=
  ((((((((StateData.empty.allows "enter_insert_mode" none (some "i") (some "Insert Mode")
      false (some "Enter INSERT mode") none
    ).allows "execute_query" none (some "enter") (some "Execute") false
      (some "Execute query") none
    ).allows "clear_query" none (some "d") (some "Clear") false (some "Clear query") none
    ).allows "new_query" none (some "n") (some "New") false
      (some "New query (clear all)") none
    ).allows "vim_down" none none none false (some "Move down") (some "j")
    ).allows "vim_up" none none none false (some "Move up") (some "k")
    ).allows "vim_left" none none none false (some "Move left") (some "h")
    ).allows "vim_right" none none none false (some "Move right") (some "l"))

/-- `QueryInsertModeState._setup_actions`, including its `forbids` call. -/
def query_insert_data : StateData :=
  (((((StateData.empty.allows "exit_insert_mode" none (some "esc") (some "Normal Mode")
      false (some "Exit to NORMAL mode") none
    ).allows "execute_query_insert" none (some "f5") (some "Execute") false
      (some "Execute query (stay INSERT)") none
    ).allows "autocomplete_accept" none none none false
      (some "Accept autocomplete") (some "tab")
    ).allows "quit" none none none false none none
    ).forbids ["focus_explorer", "focus_results", "leader_key", "new_connection",
      "show_help", "vim_down", "vim_up", "vim_left", "vim_right"])

/-- `ResultsFocusedState._setup_actions`. -/
def results_focused_data : StateData :=
  ((((((((StateData.empty.allows "view_cell" none (some "v") (some "View cell") false
      (some "View selected cell") none
    ).allows "copy_cell" none (some "y") (some "Copy cell") false
      (some "Copy selected cell") none
    ).allows "copy_row" none (some "Y") (some "Copy row") false
      (some "Copy selected row") none
    ).allows "copy_results" none (some "a") (some "Copy all") false
      (some "Copy all results") none
    ).allows "vim_down" none none none false (some "Move down") (some "j")
    ).allows "vim_up" none none none false (some "Move up") (some "k")
    ).allows "vim_left" none none none false (some "Move left") (some "h")
    ).allows "vim_right" none none none false (some "Move right") (some "l"))

/-- The state nodes of the machine (`UIStateMachine.__init__`). -/
def root_node : StateNode := ⟨.root, root_data⟩

def modal_active_node : StateNode := ⟨.modal_active, modal_active_data⟩

def main_screen_node : StateNode := ⟨.main_screen, main_screen_data⟩

def leader_pending_node : StateNode := ⟨.leader_pending, leader_pending_data⟩

def tree_focused_node : StateNode := ⟨.tree_focused, tree_focused_data⟩

def tree_on_connection_node : StateNode := ⟨.tree_on_connection, tree_on_connection_data⟩

def tree_on_table_node : StateNode := ⟨.tree_on_table, tree_on_table_data⟩

def tree_on_folder_node : StateNode := ⟨.tree_on_folder, tree_on_folder_data⟩

def query_focused_node : StateNode := ⟨.query_focused, query_focused_data⟩

def query_normal_node : StateNode := ⟨.query_normal, query_normal_data⟩

def query_insert_node : StateNode := ⟨.query_insert, query_insert_data⟩

def results_focused_node : StateNode := ⟨.results_focused, results_focused_data⟩

/-- Parent wiring of `UIStateMachine.__init__`, as ancestor chains. -/
def root_chain : StateChain := [root_node]

def modal_active_chain : StateChain := [modal_active_node, root_node]

def main_screen_chain : StateChain := [main_screen_node, root_node]

def leader_pending_chain : StateChain :=
  [leader_pending_node, main_screen_node, root_node]

def tree_focused_chain : StateChain := [tree_focused_node, main_screen_node, root_node]

def tree_on_connection_chain : StateChain :=
  [tree_on_connection_node, tree_focused_node, main_screen_node, root_node]

def tree_on_table_chain : StateChain :=
  [tree_on_table_node, tree_focused_node, main_screen_node, root_node]

def tree_on_folder_chain : StateChain :=
  [tree_on_folder_node, tree_focused_node, main_screen_node, root_node]

def query_focused_chain : StateChain := [query_focused_node, main_screen_node, root_node]

def query_normal_chain : StateChain :=
  [query_normal_node, query_focused_node, main_screen_node, root_node]

def query_insert_chain : StateChain :=
  [query_insert_node, query_focused_node, main_screen_node, root_node]

def results_focused_chain : StateChain :=
  [results_focused_node, main_screen_node, root_node]

/-- The priority-ordered state list `UIStateMachine._states` (most specific
first; the final two entries are the main-screen fallback and the root). -/
def machine_states : List StateChain :=
  [modal_active_chain, leader_pending_chain,
   tree_on_connection_chain, tree_on_table_chain, tree_on_folder_chain,
   tree_focused_chain,
   query_insert_chain, query_normal_chain, query_focused_chain,
   results_focused_chain,
   main_screen_chain, root_chain]

/-- `UIStateMachine.get_active_state`: first active state in priority
order, with the root as the (unreachable) fallback. -/
def get_active_state (app : App) : StateChain :=
  match machine_states.find? (fun s => chain_is_active s app) with
  | some s => s
  | none => root_chain

/-- `UIStateMachine.check_action`: only an explicitly ALLOWED result
permits the action. -/
def machine_check_action (reg : List LeaderCommand) (app : App)
    (action_name : String) : Bool :=
  check_action reg (get_active_state app) app action_name == .ALLOWED

/-- The head class tag of a chain (mirroring
`UIStateMachine.get_active_state_name`). -/
def chain_kind : StateChain → Option StateKind
  | [] => none
  | node :: _ => some node.kind

/-- A default snapshot: no modal, nothing focused, NORMAL mode, not
connected, no results. -/
def snap_default : App := ⟨false, false, false, none, false, .NORMAL, false, false, none, false, []⟩

/-- A snapshot with the explorer tree focused and the cursor not on any
recognised node kind. -/
def snap_tree : App := ⟨false, false, true, none, false, .NORMAL, false, false, none, false, []⟩

/-- A snapshot with the query editor focused in INSERT mode. -/
def snap_insert : App := ⟨false, false, false, none, true, .INSERT, false, false, none, false, []⟩

/-- A snapshot with the query editor focused in NORMAL mode. -/
def snap_normal : App := ⟨false, false, false, none, true, .NORMAL, false, false, none, false, []⟩

/-- One keymap entry as delivered by `keymap.get_leader_commands()` (the
keymap module is outside the verified sources; per the spec it supplies an
ordered list of key/action/label/category records with an optional guard
NAME). -/
structure LeaderCommandDef where
  key : String
  action : String
  label : String
  category : String
  guard : Option String

/-- The `LEADER_GUARDS` registry of `state_machine.py`: exactly two named
guards. -/
def LEADER_GUARDS : String → Option (App → Bool) := fun n =>
  if n = "has_connection" then some (fun app => app.current_connection)
  else if n = "query_executing" then some (fun app => app.query_executing)
  else none

/-- `_build_leader_commands`: for each keymap entry, look the guard name up
in `LEADER_GUARDS` (a plain dictionary `.get`, yielding no guard when the
name is absent) and build the `LeaderCommand`. -/
def build_leader_commands (defs : List LeaderCommandDef) : List LeaderCommand :=
  defs.map (fun d =>
    ⟨d.key, d.action, d.label, d.category,
      if strTruthy d.guard then LEADER_GUARDS (d.guard.getD "") else none⟩)

/-!
Leader dispatcher (`ui/mixins/ui_navigation.py`).  The dispatcher's
observable state is the `_leader_pending` flag, the `_leader_timer` slot
(whether it holds a timer object, and whether that timer is still
scheduled), whether the leader menu screen is open, plus two effect
ledgers: how many times the menu has been pushed and which underlying
actions were dispatched.
-/

/-- Observable state of the leader dispatcher. -/
structure Dispatcher where
  pending : Bool
  timer_set : Bool
  timer_live : Bool
  menu_open : Bool
  menu_shown : Nat
  invoked : List String
deriving DecidableEq, Repr

/-- The dispatcher at application start (`_leader_timer = None`,
`_leader_pending = False`). -/
def dispatcher_init : Dispatcher := ⟨false, false, false, false, 0, []⟩

/-- The leader timer delay, from `self.set_timer(0.2, show_menu)`. -/
def leader_timer_delay_ms : Nat := 200

/-- `action_leader_key`: a no-op in INSERT mode; otherwise stop any
existing timer, raise the pending flag and schedule a fresh single-shot
timer. -/
def action_leader_key (vim : VimMode) (d : Dispatcher) : Dispatcher :=
  if vim = .INSERT then d
  else Dispatcher.mk true true true d.menu_open d.menu_shown d.invoked

/-- The timer firing: the single-shot timer is spent, then the `show_menu`
callback runs — when the pending flag is still up it lowers the flag and
`_show_leader_menu` pushes the menu screen unless a modal is already
open. -/
def timer_fire (modal : Bool) (d : Dispatcher) : Dispatcher :=
  if d.pending then
    if modal then Dispatcher.mk false d.timer_set false d.menu_open d.menu_shown d.invoked
    else Dispatcher.mk false d.timer_set false true (d.menu_shown + 1) d.invoked
  else Dispatcher.mk d.pending d.timer_set false d.menu_open d.menu_shown d.invoked

/-- `_cancel_leader_pending`: lower the flag, stop the timer and clear the
slot. -/
def cancel_leader_pending (d : Dispatcher) : Dispatcher :=
  Dispatcher.mk false false false d.menu_open d.menu_shown d.invoked

/-- `_execute_leader_command`: cancel the pending state, then invoke the
underlying action. -/
def execute_leader_command (a : String) (d : Dispatcher) : Dispatcher :=
  let d1 := cancel_leader_pending d
  Dispatcher.mk d1.pending d1.timer_set d1.timer_live d1.menu_open d1.menu_shown
    (d1.invoked ++ [a])

/-- `_handle_leader_result`: the menu screen is dismissed; a selected
command is executed, a cancellation changes nothing else. -/
def handle_leader_result (r : Option String) (d : Dispatcher) : Dispatcher :=
  let d0 := Dispatcher.mk d.pending d.timer_set d.timer_live false d.menu_shown d.invoked
  match r with
  | some a => execute_leader_command a d0
  | none => d0

/-- Events the dispatcher reacts to. -/
inductive LEvent where
  | press
  | fire
  | keyMatch (a : String)
  | dismiss (r : Option String)
deriving DecidableEq, Repr

/-- Dispatcher transitions, one per source entry point.  `fire` requires a
live timer; `keyMatch a` requires the pending flag (the leader-pending
state is only active then) and that the state machine authorizes the
leader-prefixed binding action, after which `action_leader_<a>` runs
`_execute_leader_command(a)`; `dismiss` requires the menu screen to be
open, which the source only reaches with the pending flag already
lowered (the flag is lowered in the same callback that pushes the
screen, and the modal-blocking state forbids `leader_key` afterwards). -/
inductive LStep (reg : List LeaderCommand) (app : App) :
    Dispatcher → LEvent → Dispatcher → Prop where
  | press (d : Dispatcher) :
      LStep reg app d .press (action_leader_key app.vim_mode d)
  | fire (d : Dispatcher) :
      d.timer_live = true →
      LStep reg app d .fire (timer_fire app.modal_active d)
  | keyMatch (d : Dispatcher) (a : String) :
      d.pending = true →
      leader_pending_check reg app ("leader_" ++ a) = .ALLOWED →
      LStep reg app d (.keyMatch a) (execute_leader_command a d)
  | dismiss (d : Dispatcher) (r : Option String) :
      d.menu_open = true →
      d.pending = false →
      LStep reg app d (.dismiss r) (handle_leader_result r d)

/-!
Exception-transparent twin of the authorization path, for the analysis of
guard predicates that raise.  Guards become `Except`-valued; the monadic
translation mirrors the source exactly: neither `ActionSpec.is_allowed`
nor `State.check_action` installs any exception handler, so a raising
guard propagates.
-/

/-- An action rule whose guard may raise (`.error`) when evaluated. -/
structure ActionSpecE where
  guard : Option (App → Except String Bool)

/-- `ActionSpec.is_allowed` with a possibly-raising guard: the guard is
called directly, with no handler around it. -/
def ActionSpecE.is_allowed (spec : ActionSpecE) (app : App) : Except String Bool :=
  match spec.guard with
  | none => .ok true
  | some g => g app

/-- The per-state data consulted by the base `check_action`. -/
structure StateDataE where
  actions : String → Option ActionSpecE
  forbidden : List String

/-- The base `State.check_action` over possibly-raising guards: forbid,
then own rule (a raising guard propagates — there is no `try` in the
source), then parent, else unhandled. -/
def check_actionE : List StateDataE → App → String → Except String ActionResult
  | [], _, _ => .ok .UNHANDLED
  | d :: rest, app, a =>
    if a ∈ d.forbidden then .ok .FORBIDDEN
    else
      match d.actions a with
      | some spec =>
          match spec.is_allowed app with
          | .ok b => if b then .ok .ALLOWED else .ok .FORBIDDEN
          | .error e => .error e
      | none => check_actionE rest app a

/-- The state classes that do NOT override `get_display_bindings` and so
inherit the base algorithm. -/
def display_default_kind (k : StateKind) : Bool :=
  match k with
  | .root => true
  | .main_screen => true
  | .tree_focused => true
  | .query_focused => true
  | _ => false

/-- The state classes that do NOT override `check_action` and so inherit
the base forbid/rule/delegate algorithm. -/
def check_default_kind (k : StateKind) : Bool :=
  match k with
  | .modal_active => false
  | .leader_pending => false
  | _ => true

/-- Modelled from the spec: the display-binding algorithm exactly as claim
C3 words it, applied uniformly to EVERY state with no per-class override —
own left-ordering then right-ordering guard-passing entries in
registration order, then the parent's results filtered to exclude action
names already seen.  Used only for comparison against the source's
`get_display_bindings`. -/
def spec_display_bindings : StateChain → App → List DisplayBinding × List DisplayBinding
  | [], _ => ([], [])
  | node :: rest, app =>
    let own_left := collect_own node.data.actions app node.data.display_order [] []
    let own_right := collect_own node.data.actions app node.data.right_bindings own_left.2 []
    let parent := spec_display_bindings rest app
    let merged_left := append_filtered parent.1 own_right.2 own_left.1
    let merged_right := append_filtered parent.2 merged_left.2 own_right.1
    (merged_left.1, merged_right.1)

/-- One display-binding registration for the round-trip analysis of claim
C4: an action name, an optional guard and a (key, label) display pair. -/
structure Reg where
  name : String
  guard : Option (App → Bool)
  key : String
  label : String

/-- Register a list of display bindings left-to-right on a state (each one
a left-slot `allows` call with a display pair and no help text). -/
def build_state : StateData → List Reg → StateData
  | s, [] => s
  | s, r :: rs =>
      build_state (s.allows r.name r.guard (some r.key) (some r.label) false none none) rs

/-- The displayed triple a `Reg` produces when its guard passes. -/
def Reg.triple (r : Reg) : DisplayBinding := ⟨r.key, r.label, r.name⟩

/-- Whether a `Reg`'s guard passes on a snapshot (absence means pass). -/
def Reg.passes (r : Reg) (app : App) : Bool :=
  match r.guard with
  | none => true
  | some g => g app

/-- A registry holding two leader commands with the SAME underlying action
name, the first guarded by a never-passing guard, the second unguarded. -/
def reg_dup : List LeaderCommand :=
  [⟨"a", "x", "L1", "C", some (fun _ => false)⟩, ⟨"b", "x", "L2", "C", none⟩]

/-- A keymap whose single entry names a guard absent from
`LEADER_GUARDS`. -/
def bad_keymap : List LeaderCommandDef :=
  [⟨"q", "quit", "Quit", "General", some "no_such_guard"⟩]

/-- A guard predicate that raises when evaluated. -/
def raising_guard : App → Except String Bool := fun _ => .error "guard blew up"

/-- A state owning one rule for action `act` whose guard raises. -/
def raising_state : StateDataE :=
  ⟨fun a => if a = "act" then some ⟨some raising_guard⟩ else none, []⟩

/-! ### Generic helper lemmas -/

theorem find?_decompose {α : Type} (p : α → Bool) :
    ∀ (l : List α) (a : α), l.find? p = some a →
      ∃ pre post, l = pre ++ a :: post ∧ p a = true ∧ ∀ x ∈ pre, p x = false := by
  intro l
  induction l with
  | nil => intro a h; simp [List.find?] at h
  | cons x t ih =>
      intro a h
      by_cases hx : p x = true
      · rw [List.find?_cons_of_pos _ hx] at h
        obtain rfl : x = a := by injection h
        exact ⟨[], t, by simp, hx, by simp⟩
      · rw [List.find?_cons_of_neg _ (by simpa using hx)] at h
        obtain ⟨pre, post, hl, hpa, hpre⟩ := ih a h
        refine ⟨x :: pre, post, by simp [hl], hpa, ?_⟩
        intro y hy
        rcases List.mem_cons.mp hy with rfl | hy
        · simpa using hx
        · exact hpre y hy

theorem find?_isSome_of_mem {α : Type} (p : α → Bool) :
    ∀ (l : List α) (a : α), a ∈ l → p a = true → ∃ b, l.find? p = some b := by
  intro l
  induction l with
  | nil => simp
  | cons x t ih =>
      intro a ha hp
      by_cases hx : p x = true
      · exact ⟨x, List.find?_cons_of_pos _ hx⟩
      · rcases List.mem_cons.mp ha with rfl | ha
        · exact absurd hp hx
        · obtain ⟨b, hb⟩ := ih a ha hp
          exact ⟨b, by rw [List.find?_cons_of_neg _ (by simpa using hx)]; exact hb⟩

theorem collect_own_spec (actions : String → Option ActionSpec) (app : App) :
    ∀ (order seen : List String) (acc : List DisplayBinding),
      ∃ add : List DisplayBinding,
        collect_own actions app order seen acc =
          (acc ++ add, seen ++ add.map (fun b => b.action))
        ∧ (∀ b ∈ add, b.action ∉ seen)
        ∧ (add.map (fun b => b.action)).Nodup := by
  intro order
  induction order with
  | nil => intro seen acc; exact ⟨[], by simp [collect_own], by simp, by simp⟩
  | cons a rest ih =>
      intro seen acc
      by_cases hmem : a ∈ seen
      · obtain ⟨add, h1, h2, h3⟩ := ih seen acc
        exact ⟨add, by simpa [collect_own, hmem] using h1, h2, h3⟩
      · cases hact : actions a with
        | none =>
            obtain ⟨add, h1, h2, h3⟩ := ih seen acc
            exact ⟨add, by simpa [collect_own, hmem, hact] using h1, h2, h3⟩
        | some spec =>
            cases hall : spec.is_allowed app with
            | false =>
                obtain ⟨add, h1, h2, h3⟩ := ih seen acc
                exact ⟨add, by simpa [collect_own, hmem, hact, hall] using h1, h2, h3⟩
            | true =>
                cases hdb : spec.get_display_binding a with
                | none =>
                    obtain ⟨add, h1, h2, h3⟩ := ih seen acc
                    exact ⟨add, by simpa [collect_own, hmem, hact, hall, hdb] using h1,
                      h2, h3⟩
                | some b =>
                    obtain ⟨add, h1, h2, h3⟩ := ih (seen ++ [a]) (acc ++ [b])
                    have hba : b.action = a := by
                      revert hdb
                      unfold ActionSpec.get_display_binding
                      split
                      · intro h; injection h with h; rw [← h]
                      · intro h; cases h
                    refine ⟨b :: add, ?_, ?_, ?_⟩
                    · have hstep : collect_own actions app (a :: rest) seen acc =
                          collect_own actions app rest (seen ++ [a]) (acc ++ [b]) := by
                        simp [collect_own, hmem, hact, hall, hdb]
                      rw [hstep, h1]
                      simp [hba]
                    · intro b2 hb2
                      rcases List.mem_cons.mp hb2 with rfl | hb2
                      · rw [hba]; exact hmem
                      · intro hc
                        exact h2 b2 hb2 (List.mem_append_left _ hc)
                    · rw [List.map_cons]
                      refine List.nodup_cons.mpr ⟨?_, h3⟩
                      intro hc
                      obtain ⟨b2, hb2, hb2a⟩ := List.mem_map.mp hc
                      have := h2 b2 hb2
                      rw [hb2a, hba] at this
                      exact this (List.mem_append_right _ (by simp))

theorem append_filtered_spec :
    ∀ (src : List DisplayBinding) (seen : List String) (acc : List DisplayBinding),
      ∃ add, append_filtered src seen acc = (acc ++ add, seen ++ add.map (fun b => b.action))
        ∧ (∀ b ∈ add, b.action ∉ seen ∧ b ∈ src)
        ∧ (add.map (fun b => b.action)).Nodup := by
  intro src
  induction src with
  | nil => intro seen acc; exact ⟨[], by simp [append_filtered], by simp, by simp⟩
  | cons b rest ih =>
      intro seen acc
      by_cases hmem : b.action ∈ seen
      · obtain ⟨add, h1, h2, h3⟩ := ih seen acc
        refine ⟨add, by simpa [append_filtered, hmem] using h1, ?_, h3⟩
        intro b2 hb2
        exact ⟨(h2 b2 hb2).1, List.mem_cons_of_mem _ (h2 b2 hb2).2⟩
      · obtain ⟨add, h1, h2, h3⟩ := ih (seen ++ [b.action]) (acc ++ [b])
        refine ⟨b :: add, ?_, ?_, ?_⟩
        · have hstep : append_filtered (b :: rest) seen acc =
              append_filtered rest (seen ++ [b.action]) (acc ++ [b]) := by
            simp [append_filtered, hmem]
          rw [hstep, h1]
          simp
        · intro b2 hb2
          rcases List.mem_cons.mp hb2 with rfl | hb2
          · exact ⟨hmem, List.mem_cons_self _ _⟩
          · refine ⟨?_, List.mem_cons_of_mem _ (h2 b2 hb2).2⟩
            intro hc
            exact (h2 b2 hb2).1 (List.mem_append_left _ hc)
        · rw [List.map_cons]
          refine List.nodup_cons.mpr ⟨?_, h3⟩
          intro hc
          obtain ⟨b2, hb2, hb2a⟩ := List.mem_map.mp hc
          have := (h2 b2 hb2).1
          rw [hb2a] at this
          exact this (List.mem_append_right _ (by simp))

/-- On a duplicate-free ordering list disjoint from the seen set,
`collect_own` is a `filterMap`: one triple per guard-passing entry with a
display pair, in list order. -/
theorem collect_own_filterMap (actions : String → Option ActionSpec) (app : App) :
    ∀ (order seen : List String) (acc : List DisplayBinding),
      order.Nodup → (∀ a ∈ order, a ∉ seen) →
      collect_own actions app order seen acc =
        (acc ++ order.filterMap (fun a =>
            match actions a with
            | some spec => if spec.is_allowed app then spec.get_display_binding a else none
            | none => none),
         seen ++ (order.filterMap (fun a =>
            match actions a with
            | some spec => if spec.is_allowed app then spec.get_display_binding a else none
            | none => none)).map (fun b => b.action)) := by
  intro order
  induction order with
  | nil => intro seen acc _ _; simp [collect_own]
  | cons a rest ih =>
      intro seen acc hnd hdisj
      have hmem : a ∉ seen := hdisj a (List.mem_cons_self a rest)
      have hnd2 := List.nodup_cons.mp hnd
      cases hact : actions a with
      | none =>
          rw [show collect_own actions app (a :: rest) seen acc =
              collect_own actions app rest seen acc from by
            simp [collect_own, hmem, hact]]
          rw [ih seen acc hnd2.2 (fun x hx => hdisj x (List.mem_cons_of_mem a hx))]
          simp [hact]
      | some spec =>
          cases hall : spec.is_allowed app with
          | false =>
              rw [show collect_own actions app (a :: rest) seen acc =
                  collect_own actions app rest seen acc from by
                simp [collect_own, hmem, hact, hall]]
              rw [ih seen acc hnd2.2 (fun x hx => hdisj x (List.mem_cons_of_mem a hx))]
              simp [hact, hall]
          | true =>
              cases hdb : spec.get_display_binding a with
              | none =>
                  rw [show collect_own actions app (a :: rest) seen acc =
                      collect_own actions app rest seen acc from by
                    simp [collect_own, hmem, hact, hall, hdb]]
                  rw [ih seen acc hnd2.2 (fun x hx => hdisj x (List.mem_cons_of_mem a hx))]
                  simp [hact, hall, hdb]
              | some b =>
                  have hba : b.action = a := by
                    revert hdb
                    unfold ActionSpec.get_display_binding
                    split
                    · intro h; injection h with h; rw [← h]
                    · intro h; cases h
                  rw [show collect_own actions app (a :: rest) seen acc =
                      collect_own actions app rest (seen ++ [a]) (acc ++ [b]) from by
                    simp [collect_own, hmem, hact, hall, hdb]]
                  rw [ih (seen ++ [a]) (acc ++ [b]) hnd2.2 ?_]
                  · simp [hact, hall, hdb, hba]
                  · intro x hx
                    simp only [List.mem_append, List.mem_singleton]
                    rintro (hc | rfl)
                    · exact hdisj x (List.mem_cons_of_mem a hx) hc
                    · exact hnd2.1 hx

/-- Unfolding equation for the base `check_action` on a state whose class
does not override it. -/
theorem check_action_default_eq (reg : List LeaderCommand) (k : StateKind)
    (data : StateData) (rest : StateChain) (app : App) (a : String)
    (hk : check_default_kind k = true) :
    check_action reg (⟨k, data⟩ :: rest) app a =
      (if a ∈ data.forbidden then .FORBIDDEN
       else
         match data.actions a with
         | some spec => if spec.is_allowed app then .ALLOWED else .FORBIDDEN
         | none => check_action reg rest app a) := by
  cases k
  case modal_active => exact absurd hk (by decide)
  case leader_pending => exact absurd hk (by decide)
  all_goals rfl

/-- Unfolding equation for the base `get_display_bindings` on a state
whose class does not override it. -/
theorem gdb_default_eq (k : StateKind) (data : StateData) (rest : StateChain)
    (app : App) (hk : display_default_kind k = true) :
    get_display_bindings (⟨k, data⟩ :: rest) app =
      ((append_filtered (get_display_bindings rest app).1
          (collect_own data.actions app data.right_bindings
            (collect_own data.actions app data.display_order [] []).2 []).2
          (collect_own data.actions app data.display_order [] []).1).1,
       (append_filtered (get_display_bindings rest app).2
          (append_filtered (get_display_bindings rest app).1
            (collect_own data.actions app data.right_bindings
              (collect_own data.actions app data.display_order [] []).2 []).2
            (collect_own data.actions app data.display_order [] []).1).2
          (collect_own data.actions app data.right_bindings
            (collect_own data.actions app data.display_order [] []).2 []).1).1) := by
  cases k
  case root => rfl
  case main_screen => rfl
  case tree_focused => rfl
  case query_focused => rfl
  all_goals exact absurd hk (by decide)

/-- Structure of the base `get_display_bindings`: the state's own left and
right collections come first (A and B), the parent contributes only
bindings whose action names the state has not already emitted (C and D,
drawn from the parent's left/right results respectively), and the merged
output never shows two bindings with the same action name. -/
theorem gdb_default_structure (app : App) (k : StateKind) (data : StateData)
    (rest : StateChain) (hk : display_default_kind k = true) :
    ∃ A B C D : List DisplayBinding,
      collect_own data.actions app data.display_order [] [] =
        (A, A.map (fun b => b.action))
      ∧ collect_own data.actions app data.right_bindings
          (A.map (fun b => b.action)) [] =
          (B, A.map (fun b => b.action) ++ B.map (fun b => b.action))
      ∧ get_display_bindings (⟨k, data⟩ :: rest) app = (A ++ C, B ++ D)
      ∧ (∀ b ∈ C, b ∈ (get_display_bindings rest app).1
          ∧ b.action ∉ A.map (fun b2 => b2.action) ++ B.map (fun b2 => b2.action))
      ∧ (∀ b ∈ D, b ∈ (get_display_bindings rest app).2
          ∧ b.action ∉ A.map (fun b2 => b2.action) ++ B.map (fun b2 => b2.action))
      ∧ (((A ++ C) ++ (B ++ D)).map (fun b => b.action)).Nodup := by
  obtain ⟨A, hA, hAs, hAn⟩ := collect_own_spec data.actions app data.display_order [] []
  simp only [List.nil_append] at hA
  obtain ⟨B, hB, hBs, hBn⟩ :=
    collect_own_spec data.actions app data.right_bindings (A.map (fun b => b.action)) []
  simp only [List.nil_append] at hB
  obtain ⟨C, hC, hCs, hCn⟩ := append_filtered_spec (get_display_bindings rest app).1
    (A.map (fun b => b.action) ++ B.map (fun b => b.action)) A
  obtain ⟨D, hD, hDs, hDn⟩ := append_filtered_spec (get_display_bindings rest app).2
    ((A.map (fun b => b.action) ++ B.map (fun b => b.action)) ++ C.map (fun b => b.action)) B
  have e1 : (collect_own data.actions app data.display_order [] []).1 = A := by rw [hA]
  have e2 : (collect_own data.actions app data.display_order [] []).2 =
      A.map (fun b => b.action) := by rw [hA]
  have e3 : (collect_own data.actions app data.right_bindings
      (A.map (fun b => b.action)) []).1 = B := by rw [hB]
  have e4 : (collect_own data.actions app data.right_bindings
      (A.map (fun b => b.action)) []).2 =
      A.map (fun b => b.action) ++ B.map (fun b => b.action) := by rw [hB]
  have e5 : (append_filtered (get_display_bindings rest app).1
      (A.map (fun b => b.action) ++ B.map (fun b => b.action)) A).1 = A ++ C := by rw [hC]
  have e6 : (append_filtered (get_display_bindings rest app).1
      (A.map (fun b => b.action) ++ B.map (fun b => b.action)) A).2 =
      (A.map (fun b => b.action) ++ B.map (fun b => b.action)) ++
        C.map (fun b => b.action) := by rw [hC]
  have e7 : (append_filtered (get_display_bindings rest app).2
      ((A.map (fun b => b.action) ++ B.map (fun b => b.action)) ++
        C.map (fun b => b.action)) B).1 = B ++ D := by rw [hD]
  refine ⟨A, B, C, D, hA, hB, ?_, ?_, ?_, ?_⟩
  · rw [gdb_default_eq k data rest app hk, e2, e4, e1, e3, e5, e6, e7]
  · exact fun b hb => ⟨(hCs b hb).2, (hCs b hb).1⟩
  · intro b hb
    refine ⟨(hDs b hb).2, ?_⟩
    intro hc
    exact (hDs b hb).1 (List.mem_append_left _ hc)
  · have disjAC : (A.map (fun b => b.action)).Disjoint (C.map (fun b => b.action)) := by
      intro x hxA hxC
      obtain ⟨c, hc, rfl⟩ := List.mem_map.mp hxC
      exact (hCs c hc).1 (List.mem_append_left _ hxA)
    have disjBD : (B.map (fun b => b.action)).Disjoint (D.map (fun b => b.action)) := by
      intro x hxB hxD
      obtain ⟨d, hd, rfl⟩ := List.mem_map.mp hxD
      exact (hDs d hd).1
        (List.mem_append_left _ (List.mem_append_right _ hxB))
    have disjoint_lr : ((A ++ C).map (fun b => b.action)).Disjoint
        ((B ++ D).map (fun b => b.action)) := by
      intro x hx1 hx2
      rw [List.map_append, List.mem_append] at hx1 hx2
      rcases hx1 with hxA | hxC
      · rcases hx2 with hxB | hxD
        · obtain ⟨b, hb, rfl⟩ := List.mem_map.mp hxB
          exact hBs b hb hxA
        · obtain ⟨d, hd, rfl⟩ := List.mem_map.mp hxD
          exact (hDs d hd).1
            (List.mem_append_left _ (List.mem_append_left _ hxA))
      · rcases hx2 with hxB | hxD
        · obtain ⟨c, hc, rfl⟩ := List.mem_map.mp hxC
          exact (hCs c hc).1 (List.mem_append_right _ hxB)
        · obtain ⟨d, hd, rfl⟩ := List.mem_map.mp hxD
          exact (hDs d hd).1 (List.mem_append_right _ hxC)
    have hACn : ((A ++ C).map (fun b => b.action)).Nodup := by
      rw [List.map_append]
      exact List.Nodup.append hAn hCn disjAC
    have hBDn : ((B ++ D).map (fun b => b.action)).Nodup := by
      rw [List.map_append]
      have disj2 : (B.map (fun b => b.action)).Disjoint (D.map (fun b => b.action)) := disjBD
      exact List.Nodup.append hBn hDn disj2
    rw [List.map_append]
    exact List.Nodup.append hACn hBDn disjoint_lr

/-- The rule table after `allows`: the new spec under the registered name,
everything else untouched. -/
theorem allows_actions (s : StateData) (name : String) (g : Option (App → Bool))
    (k l : Option String) (r : Bool) (h hk : Option String) (n : String) :
    (s.allows name g k l r h hk).actions n =
      if n = name then some ⟨g, k, l, pyOr hk k, h⟩ else s.actions n := by
  cases ht : strTruthy k && strTruthy l <;> cases r <;>
    simp [StateData.allows, ht]

/-- A left-slot `allows` with a truthy display pair appends exactly one
entry to the left ordering list and leaves the other lists untouched. -/
theorem allows_display_left (s : StateData) (name : String)
    (g : Option (App → Bool)) (k l : Option String) (h hk : Option String)
    (hkt : strTruthy k = true) (hlt : strTruthy l = true) :
    (s.allows name g k l false h hk).display_order = s.display_order ++ [name]
    ∧ (s.allows name g k l false h hk).right_bindings = s.right_bindings
    ∧ (s.allows name g k l false h hk).forbidden = s.forbidden := by
  simp [StateData.allows, hkt, hlt]

/-- `build_state` appends the registered names, in order, to the left
ordering list, and leaves the right list and forbidden set untouched. -/
theorem build_state_fields :
    ∀ (regs : List Reg) (s : StateData),
      (∀ r ∈ regs, r.key.isEmpty = false ∧ r.label.isEmpty = false) →
      (build_state s regs).display_order = s.display_order ++ regs.map (fun r => r.name)
      ∧ (build_state s regs).right_bindings = s.right_bindings
      ∧ (build_state s regs).forbidden = s.forbidden := by
  intro regs
  induction regs with
  | nil => intro s _; simp [build_state]
  | cons r rs ih =>
      intro s hgood
      have h0 := hgood r (List.mem_cons_self r rs)
      have hkt : strTruthy (some r.key) = true := by simp [strTruthy, h0.1]
      have hlt : strTruthy (some r.label) = true := by simp [strTruthy, h0.2]
      obtain ⟨d1, d2, d3⟩ := allows_display_left s r.name r.guard (some r.key)
        (some r.label) none none hkt hlt
      have hrec := ih (s.allows r.name r.guard (some r.key) (some r.label) false none none)
        (fun x hx => hgood x (List.mem_cons_of_mem _ hx))
      refine ⟨?_, ?_, ?_⟩
      · rw [show build_state s (r :: rs) =
            build_state (s.allows r.name r.guard (some r.key) (some r.label) false none none)
              rs from rfl, hrec.1, d1]
        simp
      · rw [show build_state s (r :: rs) =
            build_state (s.allows r.name r.guard (some r.key) (some r.label) false none none)
              rs from rfl, hrec.2.1, d2]
      · rw [show build_state s (r :: rs) =
            build_state (s.allows r.name r.guard (some r.key) (some r.label) false none none)
              rs from rfl, hrec.2.2, d3]

/-- Names not registered by `build_state` keep their prior rule. -/
theorem build_state_actions_fresh :
    ∀ (regs : List Reg) (s : StateData) (n : String),
      n ∉ regs.map (fun r => r.name) →
      (build_state s regs).actions n = s.actions n := by
  intro regs
  induction regs with
  | nil => intro s n _; rfl
  | cons r rs ih =>
      intro s n hn
      rw [List.map_cons, List.mem_cons] at hn
      push_neg at hn
      rw [show build_state s (r :: rs) =
          build_state (s.allows r.name r.guard (some r.key) (some r.label) false none none)
            rs from rfl,
        ih _ n hn.2, allows_actions]
      rw [if_neg hn.1]

/-- With pairwise-distinct names, each registered name maps to exactly its
registration's spec. -/
theorem build_state_actions_mem :
    ∀ (regs : List Reg) (s : StateData) (r : Reg),
      (regs.map (fun r => r.name)).Nodup → r ∈ regs →
      (build_state s regs).actions r.name =
        some ⟨r.guard, some r.key, some r.label, some r.key, none⟩ := by
  intro regs
  induction regs with
  | nil => intro s r _ hr; cases hr
  | cons r0 rs ih =>
      intro s r hnd hr
      rw [List.map_cons] at hnd
      have hnd2 := List.nodup_cons.mp hnd
      rcases List.mem_cons.mp hr with rfl | hr
      · have hfresh : r.name ∉ rs.map (fun r2 => r2.name) := hnd2.1
        rw [show build_state s (r :: rs) =
            build_state (s.allows r.name r.guard (some r.key) (some r.label) false none none)
              rs from rfl,
          build_state_actions_fresh rs _ r.name hfresh, allows_actions]
        simp [pyOr, strTruthy]
      · exact ih _ r hnd2.2 hr

/-- Round trip: building a state from distinct-named display registrations
and asking for its display bindings returns exactly the guard-passing
triples, in registration order, with an empty right slot. -/
theorem build_state_roundtrip (regs : List Reg) (app : App)
    (hgood : ∀ r ∈ regs, r.key.isEmpty = false ∧ r.label.isEmpty = false)
    (hnd : (regs.map (fun r => r.name)).Nodup) :
    get_display_bindings [⟨.root, build_state StateData.empty regs⟩] app =
      (regs.filterMap (fun r => if r.passes app then some r.triple else none), []) := by
  obtain ⟨hdo, hrb, _⟩ := build_state_fields regs StateData.empty hgood
  have horder : (build_state StateData.empty regs).display_order =
      regs.map (fun r => r.name) := by
    rw [hdo]; simp [StateData.empty]
  have hright : (build_state StateData.empty regs).right_bindings = [] := by
    rw [hrb]; rfl
  have hnd2 : (build_state StateData.empty regs).display_order.Nodup := by
    rw [horder]; exact hnd
  have hdisj : ∀ a ∈ (build_state StateData.empty regs).display_order,
      a ∉ ([] : List String) := by simp
  have hcol := collect_own_filterMap (build_state StateData.empty regs).actions app
    (build_state StateData.empty regs).display_order [] [] hnd2 hdisj
  simp only [List.nil_append] at hcol
  have hfm : (build_state StateData.empty regs).display_order.filterMap (fun a =>
      match (build_state StateData.empty regs).actions a with
      | some spec => if spec.is_allowed app then spec.get_display_binding a else none
      | none => none) =
      regs.filterMap (fun r => if r.passes app then some r.triple else none) := by
    rw [horder, List.filterMap_map]
    apply List.filterMap_congr
    intro r hr
    have hact := build_state_actions_mem regs StateData.empty r hnd hr
    have hkey := (hgood r hr).1
    have hlab := (hgood r hr).2
    simp only [Function.comp]
    rw [hact]
    have hb : ActionSpec.get_display_binding
        ⟨r.guard, some r.key, some r.label, some r.key, none⟩ r.name = some r.triple := by
      simp [ActionSpec.get_display_binding, strTruthy, hkey, hlab, Reg.triple]
    have hia : ActionSpec.is_allowed
        ⟨r.guard, some r.key, some r.label, some r.key, none⟩ app = r.passes app := rfl
    simp only [hia, hb]
  have e1 : (collect_own (build_state StateData.empty regs).actions app
      (build_state StateData.empty regs).display_order [] []).1 =
      regs.filterMap (fun r => if r.passes app then some r.triple else none) := by
    rw [hcol]; exact hfm
  have e2 : (collect_own (build_state StateData.empty regs).actions app
      (build_state StateData.empty regs).display_order [] []).2 =
      (regs.filterMap (fun r => if r.passes app then some r.triple else none)).map
        (fun b => b.action) := by
    rw [hcol, hfm]
  rw [gdb_default_eq .root (build_state StateData.empty regs) [] app (by decide), e2, e1,
    hright]
  rfl

/-! ### Claim theorems -/

/-- C1 (amended): for every state whose class does not override
authorization (all states except the modal-blocking and leader-pending
overrides), `check_action` evaluates in this exact order: a forbidden name
yields FORBIDDEN; otherwise a registered rule yields ALLOWED exactly when
its guard passes (no guard means allowed); otherwise the parent chain's
result is returned, which for an empty chain is UNHANDLED.  The public
machine check returns true if and only if the active state's three-way
result is ALLOWED, FORBIDDEN and UNHANDLED both surfacing as false. -/
theorem C1_authorize_order (reg : List LeaderCommand) (app : App) (a : String)
    (node : StateNode) (rest : StateChain)
    (hk : check_default_kind node.kind = true) :
    (a ∈ node.data.forbidden → check_action reg (node :: rest) app a = .FORBIDDEN)
    ∧ (a ∉ node.data.forbidden → ∀ spec, node.data.actions a = some spec →
        check_action reg (node :: rest) app a =
          (if spec.is_allowed app then .ALLOWED else .FORBIDDEN))
    ∧ (a ∉ node.data.forbidden → node.data.actions a = none →
        check_action reg (node :: rest) app a = check_action reg rest app a)
    ∧ check_action reg [] app a = .UNHANDLED
    ∧ (machine_check_action reg app a = true ↔
        check_action reg (get_active_state app) app a = .ALLOWED)
    ∧ ((check_action reg (get_active_state app) app a = .FORBIDDEN ∨
        check_action reg (get_active_state app) app a = .UNHANDLED) →
        machine_check_action reg app a = false) := by
  obtain ⟨k, data⟩ := node
  have he := check_action_default_eq reg k data rest app a hk
  refine ⟨?_, ?_, ?_, rfl, ?_, ?_⟩
  · intro hf; rw [he, if_pos hf]
  · intro hf spec hs; rw [he, if_neg hf, hs]
  · intro hf hs; rw [he, if_neg hf, hs]
  · simp [machine_check_action]
  · intro h
    rcases h with h | h <;> simp [machine_check_action, h]

/-- C1 witness: the amended order theorem applied to the root state and the
action `quit` on the default snapshot. -/
theorem C1_authorize_order_witness :
    check_default_kind root_node.kind = true
    ∧ (machine_check_action [] snap_default "quit" = true ↔
        check_action [] (get_active_state snap_default) snap_default "quit" = .ALLOWED) :=
  ⟨by decide,
    (C1_authorize_order [] snap_default "quit" root_node [] (by decide)).2.2.2.2.1⟩

/-- C1 counterexample: the modal-blocking state violates the claimed order.
For `show_help` it has no forbid entry and no rule, and its parent (the
root) answers ALLOWED, so the claim dictates ALLOWED by delegation — but
the overridden method returns FORBIDDEN. -/
theorem C1_modal_counterexample :
    "show_help" ∉ modal_active_node.data.forbidden
    ∧ modal_active_node.data.actions "show_help" = none
    ∧ check_action [] root_chain snap_default "show_help" = .ALLOWED
    ∧ check_action [] modal_active_chain snap_default "show_help" = .FORBIDDEN :=
  ⟨by decide, rfl, by decide, by decide⟩

/-- C2 (amended): active-state resolution is deterministic and total — the
machine returns the first state in the fixed priority list whose activation
predicate holds, a match always exists because the root (the list's final
entry, preceded by the main-screen fallback) is active on every snapshot.
More than one state may satisfy its predicate simultaneously; only the
first match is returned. -/
theorem C2_active_state_first_match :
    (∀ app : App, ∃ s, machine_states.find? (fun c => chain_is_active c app) = some s
      ∧ get_active_state app = s
      ∧ chain_is_active s app = true
      ∧ ∃ pre post, machine_states = pre ++ s :: post
          ∧ ∀ t ∈ pre, chain_is_active t app = false)
    ∧ (∀ app : App, chain_is_active root_chain app = true)
    ∧ machine_states.drop 10 = [main_screen_chain, root_chain] := by
  refine ⟨?_, fun _ => rfl, rfl⟩
  intro app
  have hmem : root_chain ∈ machine_states := by
    unfold machine_states
    exact List.Mem.tail _ (List.Mem.tail _ (List.Mem.tail _ (List.Mem.tail _
      (List.Mem.tail _ (List.Mem.tail _ (List.Mem.tail _ (List.Mem.tail _
      (List.Mem.tail _ (List.Mem.tail _ (List.Mem.tail _ (List.Mem.head _)))))))))))
  have hact : chain_is_active root_chain app = true := rfl
  obtain ⟨s, hs⟩ := find?_isSome_of_mem (fun c => chain_is_active c app)
    machine_states root_chain hmem hact
  obtain ⟨pre, post, hl, hpa, hpre⟩ := find?_decompose (fun c => chain_is_active c app)
    machine_states s hs
  refine ⟨s, hs, ?_, hpa, pre, post, hl, hpre⟩
  unfold get_active_state
  rw [hs]

/-- C2 counterexample: on the default snapshot the main-screen state AND
the root state both satisfy their activation predicates — two distinct
members of the priority list — so "exactly one state satisfies isActive"
is false. -/
theorem C2_two_active_counterexample :
    chain_is_active main_screen_chain snap_default = true
    ∧ chain_is_active root_chain snap_default = true
    ∧ chain_kind main_screen_chain ≠ chain_kind root_chain
    ∧ main_screen_chain ∈ machine_states
    ∧ root_chain ∈ machine_states := by
  refine ⟨by decide, by decide, by decide, ?_, ?_⟩
  · unfold machine_states
    exact List.Mem.tail _ (List.Mem.tail _ (List.Mem.tail _ (List.Mem.tail _
      (List.Mem.tail _ (List.Mem.tail _ (List.Mem.tail _ (List.Mem.tail _
      (List.Mem.tail _ (List.Mem.tail _ (List.Mem.head _))))))))))
  · unfold machine_states
    exact List.Mem.tail _ (List.Mem.tail _ (List.Mem.tail _ (List.Mem.tail _
      (List.Mem.tail _ (List.Mem.tail _ (List.Mem.tail _ (List.Mem.tail _
      (List.Mem.tail _ (List.Mem.tail _ (List.Mem.tail _ (List.Mem.head _)))))))))))

/-- C3 (amended): for every state whose class does not override
`get_display_bindings` (root, main-screen, tree-focused, query-focused —
the bespoke classes replace the algorithm wholesale), the merged lists
start with the state's own guard-passing left and right collections (on a
duplicate-free ordering list these are exactly the registered triples in
registration order), followed by the parent's entries filtered to exclude
any already-seen action name; no action name appears twice anywhere across
the merged left and right lists, so a child entry shadows ancestor entries
with its action name even across slots, at its child-determined
position. -/
theorem C3_display_shadowing (app : App) (node : StateNode) (rest : StateChain)
    (hk : display_default_kind node.kind = true) :
    ∃ A B C D : List DisplayBinding,
      get_display_bindings (node :: rest) app = (A ++ C, B ++ D)
      ∧ collect_own node.data.actions app node.data.display_order [] [] =
          (A, A.map (fun b => b.action))
      ∧ collect_own node.data.actions app node.data.right_bindings
          (A.map (fun b => b.action)) [] =
          (B, A.map (fun b => b.action) ++ B.map (fun b => b.action))
      ∧ (node.data.display_order.Nodup →
          A = node.data.display_order.filterMap (fun a =>
            match node.data.actions a with
            | some spec => if spec.is_allowed app then spec.get_display_binding a else none
            | none => none))
      ∧ (∀ b ∈ C, b ∈ (get_display_bindings rest app).1
          ∧ b.action ∉ A.map (fun b2 => b2.action) ++ B.map (fun b2 => b2.action))
      ∧ (∀ b ∈ D, b ∈ (get_display_bindings rest app).2
          ∧ b.action ∉ A.map (fun b2 => b2.action) ++ B.map (fun b2 => b2.action))
      ∧ (((A ++ C) ++ (B ++ D)).map (fun b => b.action)).Nodup := by
  obtain ⟨k, data⟩ := node
  obtain ⟨A, B, C, D, hA, hB, hval, hC, hD, hnd⟩ := gdb_default_structure app k data rest hk
  refine ⟨A, B, C, D, hval, hA, hB, ?_, hC, hD, hnd⟩
  intro hdup
  have h2 := collect_own_filterMap data.actions app data.display_order [] [] hdup (by simp)
  rw [h2] at hA
  have h3 := (Prod.ext_iff.mp hA).1
  simpa using h3.symm

/-- C3 witness: the shadowing theorem applied to the query-focused state on
the default snapshot, where the merged result is the parent's right-slot
leader binding. -/
theorem C3_display_shadowing_witness :
    display_default_kind query_focused_node.kind = true
    ∧ get_display_bindings query_focused_chain snap_default =
        ([], [⟨"<space>", "Commands", "leader_key"⟩])
    ∧ ∃ A B C D : List DisplayBinding,
        get_display_bindings (query_focused_node :: [main_screen_node, root_node])
          snap_default = (A ++ C, B ++ D)
        ∧ (((A ++ C) ++ (B ++ D)).map (fun b => b.action)).Nodup := by
  refine ⟨by decide, by decide, ?_⟩
  obtain ⟨A, B, C, D, h1, _, _, _, _, _, h7⟩ :=
    C3_display_shadowing snap_default query_focused_node [main_screen_node, root_node]
      (by decide)
  exact ⟨A, B, C, D, h1, h7⟩

/-- C3 counterexample: `QueryInsertModeState` overrides the method, so the
claimed universal algorithm fails on it: the real output contains a triple
for `autocomplete_accept`, whose rule has no display pair and so could
never be collected from the ordering lists, and it drops the parent's
right-slot `leader_key` entry even though no child entry shadows that
name; the algorithm as the claim words it (uniform, no overrides) yields a
different pair. -/
theorem C3_query_insert_counterexample :
    get_display_bindings query_insert_chain snap_default =
      ([⟨"esc", "Normal Mode", "exit_insert_mode"⟩,
        ⟨"f5", "Execute", "execute_query_insert"⟩,
        ⟨"tab", "Autocomplete", "autocomplete_accept"⟩], [])
    ∧ spec_display_bindings query_insert_chain snap_default =
      ([⟨"esc", "Normal Mode", "exit_insert_mode"⟩,
        ⟨"f5", "Execute", "execute_query_insert"⟩],
       [⟨"<space>", "Commands", "leader_key"⟩])
    ∧ get_display_bindings query_insert_chain snap_default ≠
        spec_display_bindings query_insert_chain snap_default
    ∧ (query_insert_data.actions "autocomplete_accept").bind
        (fun spec => spec.get_display_binding "autocomplete_accept") = none := by
  refine ⟨by decide, by decide, by decide, ?_⟩
  rfl

/-- C4 (amended): registering an action name again overwrites the rule
(last registration wins for guard, display pair and help fields), but the
ordering list is appended on EVERY registration with a display pair, so it
can hold duplicate entries; the displayed output still has no duplicates
because `get_display_bindings` skips already-seen names at read time:
registering N display bindings with unique action names returns exactly
those N entries (among guard-passing ones) in registration order, queries
are pure (repeating one returns the same value), and after re-registering
a name the output keeps one entry at the first-registration position
carrying the last registration's display pair. -/
theorem C4_registration_roundtrip :
    (∀ (s : StateData) (n : String) (g1 g2 : Option (App → Bool))
        (k1 l1 k2 l2 : Option String) (r1 r2 : Bool) (h1 hk1 h2 hk2 : Option String),
        ((s.allows n g1 k1 l1 r1 h1 hk1).allows n g2 k2 l2 r2 h2 hk2).actions n =
          some ⟨g2, k2, l2, pyOr hk2 k2, h2⟩)
    ∧ (∀ (regs : List Reg) (app : App),
        (∀ r ∈ regs, r.key.isEmpty = false ∧ r.label.isEmpty = false) →
        (regs.map (fun r => r.name)).Nodup →
        get_display_bindings [⟨.root, build_state StateData.empty regs⟩] app =
          (regs.filterMap (fun r => if r.passes app then some r.triple else none), []))
    ∧ get_display_bindings
        [⟨.root, ((StateData.empty.allows "a" none (some "k1") (some "L1") false none
            none).allows "b" none (some "k2") (some "L2") false none none).allows "a"
            none (some "k3") (some "L3") false none none⟩] snap_default =
        ([⟨"k3", "L3", "a"⟩, ⟨"k2", "L2", "b"⟩], []) := by
  refine ⟨?_, ?_, by decide⟩
  · intro s n g1 g2 k1 l1 k2 l2 r1 r2 h1 hk1 h2 hk2
    rw [allows_actions, if_pos rfl]
  · exact fun regs app hgood hnd => build_state_roundtrip regs app hgood hnd

/-- C4 witness: the round trip applied to two concrete registrations, the
second guarded by a predicate failing on the default snapshot, so exactly
the first triple is displayed. -/
theorem C4_registration_roundtrip_witness :
    get_display_bindings
      [⟨.root, build_state StateData.empty
          [⟨"one", none, "k1", "L1"⟩,
           ⟨"two", some (fun app2 => app2.current_connection), "k2", "L2"⟩]⟩]
      snap_default = ([⟨"k1", "L1", "one"⟩], []) := by
  have h := C4_registration_roundtrip.2.1
    [⟨"one", none, "k1", "L1"⟩,
     ⟨"two", some (fun app2 => app2.current_connection), "k2", "L2"⟩]
    snap_default ?_ ?_
  · rw [h]; rfl
  · intro r hr
    rcases List.mem_cons.mp hr with rfl | hr2
    · exact ⟨rfl, rfl⟩
    · rcases List.mem_cons.mp hr2 with rfl | hr3
      · exact ⟨rfl, rfl⟩
      · cases hr3
  · decide

/-- C4 counterexample: one repeated registration with a display pair puts
TWO entries for the same action name in the left ordering list — the list
is not append-once. -/
theorem C4_duplicate_order_counterexample :
    ((StateData.empty.allows "x" none (some "k") (some "L") false none none).allows "x"
        none (some "k") (some "L") false none none).display_order = ["x", "x"]
    ∧ ¬ ((StateData.empty.allows "x" none (some "k") (some "L") false none
        none).allows "x" none (some "k") (some "L") false none
        none).display_order.Nodup := ⟨rfl, by decide⟩

/-- C6 (amended): while leader-pending is active, authorization never
consults the static rule table and never delegates to the parent — the
result is the same for any rule table and any ancestor chain, and it is
never UNHANDLED.  It re-resolves the given (current) registry on each call
and returns Allowed exactly when the FIRST registered command whose
leader-prefixed binding action equals the name has a passing guard (no
guard passes), or, when no registered command claims the name, when the
name is the raw `leader_key` action; every other action is Forbidden. -/
theorem C6_leader_pending_dynamic (reg : List LeaderCommand) (app : App) (a : String)
    (d d2 : StateData) (rest rest2 : StateChain) :
    check_action reg (⟨.leader_pending, d⟩ :: rest) app a =
      check_action reg (⟨.leader_pending, d2⟩ :: rest2) app a
    ∧ check_action reg (⟨.leader_pending, d⟩ :: rest) app a = leader_pending_check reg app a
    ∧ check_action reg (⟨.leader_pending, d⟩ :: rest) app a ≠ .UNHANDLED
    ∧ (leader_pending_check reg app a = .ALLOWED ↔
        (match reg.find? (fun c => c.binding_action == a) with
         | some cmd => cmd.is_allowed app = true
         | none => a = "leader_key")) := by
  refine ⟨rfl, rfl, ?_, ?_⟩
  · show leader_pending_check reg app a ≠ .UNHANDLED
    by_cases hm : a ∈ get_leader_binding_actions reg
    · cases hfind : reg.find? (fun c => c.binding_action == a) with
      | none => simp [leader_pending_check, hm, hfind]
      | some cmd =>
          cases hall : cmd.is_allowed app <;>
            simp [leader_pending_check, hm, hfind, hall]
    · cases hlk : a == "leader_key" <;> simp [leader_pending_check, hm, hlk]
  · by_cases hm : a ∈ get_leader_binding_actions reg
    · cases hfind : reg.find? (fun c => c.binding_action == a) with
      | none =>
          obtain ⟨c, hc, hca⟩ := List.mem_map.mp hm
          have := List.find?_eq_none.mp hfind c hc
          simp [hca] at this
      | some cmd =>
          cases hall : cmd.is_allowed app <;>
            simp [leader_pending_check, hm, hfind, hall]
    · cases hfind : reg.find? (fun c => c.binding_action == a) with
      | some cmd =>
          have h1 := List.find?_some hfind
          have h2 := List.mem_of_find?_eq_some hfind
          rw [beq_iff_eq] at h1
          exact absurd (List.mem_map.mpr ⟨cmd, h2, h1⟩) hm
      | none =>
          cases hlk : a == "leader_key" <;>
            simp [leader_pending_check, hm, hfind, hlk] <;>
            simp [beq_iff_eq] at hlk <;> simp [hlk]

/-- C6 counterexample: with two registered commands sharing the action
name `x` (first guard never passes, second unguarded), the pending-state
check forbids `leader_x` even though SOME registered command with that
binding action has a passing guard — lookup stops at the first match. -/
theorem C6_duplicate_action_counterexample :
    leader_pending_check reg_dup snap_default "leader_x" = .FORBIDDEN
    ∧ ∃ c ∈ reg_dup, c.binding_action = "leader_x" ∧ c.is_allowed snap_default = true := by
  refine ⟨by decide, ⟨⟨"b", "x", "L2", "C", none⟩, ?_, rfl, rfl⟩⟩
  exact List.Mem.tail _ (List.Mem.head _)

/-- C7 (amended): with the insert-mode state active all four vim
navigation actions are explicitly FORBIDDEN and hence not permitted; with
the normal-mode state active all four are permitted; with the tree-focused
state active only vim_up and vim_down are registered and permitted, while
vim_left and vim_right are unhandled along the whole ancestor chain and
therefore not permitted. -/
theorem C7_vim_navigation (reg : List LeaderCommand) (app : App) :
    (∀ a, a ∈ ["vim_up", "vim_down", "vim_left", "vim_right"] →
      (app.modal_active = false → app.leader_pending = false → app.tree_focus = false →
        app.query_focus = true → app.vim_mode = .INSERT →
        check_action reg (get_active_state app) app a = .FORBIDDEN
        ∧ machine_check_action reg app a = false)
      ∧ (app.modal_active = false → app.leader_pending = false → app.tree_focus = false →
        app.query_focus = true → app.vim_mode = .NORMAL →
        machine_check_action reg app a = true))
    ∧ (app.modal_active = false → app.leader_pending = false → app.tree_focus = true →
      app.cursor_node = none →
        machine_check_action reg app "vim_up" = true
        ∧ machine_check_action reg app "vim_down" = true
        ∧ machine_check_action reg app "vim_left" = false
        ∧ machine_check_action reg app "vim_right" = false) := by
  obtain ⟨mo, lp, tf, cn, qf, vm, rf, cc, ccn, qe, lrc⟩ := app
  constructor
  · intro a ha
    constructor
    · intro h1 h2 h3 h4 h5
      subst h1; subst h2; subst h3; subst h4; subst h5
      simp only [List.mem_cons, List.mem_nil_iff, or_false] at ha
      rcases ha with rfl | rfl | rfl | rfl <;> exact ⟨rfl, rfl⟩
    · intro h1 h2 h3 h4 h5
      subst h1; subst h2; subst h3; subst h4; subst h5
      simp only [List.mem_cons, List.mem_nil_iff, or_false] at ha
      rcases ha with rfl | rfl | rfl | rfl <;> rfl
  · intro h1 h2 h3 h4
    subst h1; subst h2; subst h3; subst h4
    exact ⟨rfl, rfl, rfl, rfl⟩

/-- C7 witness: the navigation theorem applied at the three concrete
snapshots (insert mode, normal mode, tree focused). -/
theorem C7_vim_navigation_witness :
    machine_check_action [] snap_insert "vim_up" = false
    ∧ machine_check_action [] snap_normal "vim_up" = true
    ∧ machine_check_action [] snap_tree "vim_up" = true
    ∧ machine_check_action [] snap_tree "vim_left" = false := by
  refine ⟨(((C7_vim_navigation [] snap_insert).1 "vim_up" (by decide)).1
      rfl rfl rfl rfl rfl).2, ?_, ?_, ?_⟩
  · exact ((C7_vim_navigation [] snap_normal).1 "vim_up" (by decide)).2 rfl rfl rfl rfl rfl
  · exact ((C7_vim_navigation [] snap_tree).2 rfl rfl rfl rfl).1
  · exact ((C7_vim_navigation [] snap_tree).2 rfl rfl rfl rfl).2.2.1

/-- C7 counterexample: with the tree-focused state active, `vim_left` is
NOT permitted — it is unhandled along the whole chain, contradicting the
claim that all four navigation actions are permitted there. -/
theorem C7_tree_vim_left_counterexample :
    chain_kind (get_active_state snap_tree) = some .tree_focused
    ∧ machine_check_action [] snap_tree "vim_left" = false
    ∧ check_action [] (get_active_state snap_tree) snap_tree "vim_left" = .UNHANDLED :=
  ⟨by decide, by decide, by decide⟩

/-- C8 evaluated at the failing input: a keymap entry naming the unknown
guard `no_such_guard` does NOT make loading fail — `_build_leader_commands`
silently builds the command with no guard at all (`LEADER_GUARDS.get`
returns nothing), so the command is thereafter always allowed.  The spec
requires a configuration error surfaced at construction/startup instead. -/
theorem C8_unknown_guard_silently_allowed :
    (LEADER_GUARDS "no_such_guard").isNone = true
    ∧ (build_leader_commands bad_keymap).length = 1
    ∧ (build_leader_commands bad_keymap).all (fun c => c.guard.isNone) = true
    ∧ (build_leader_commands bad_keymap).all (fun c => c.is_allowed snap_default) = true :=
  ⟨rfl, rfl, rfl, rfl⟩

/-- C9 counterexample: a registered rule whose guard raises makes the
authorize call itself propagate the exception — the call does not return
Forbidden (it returns no result at all), contradicting the claim that the
exception does not propagate out of the authorize call. -/
theorem C9_guard_raise_counterexample :
    check_actionE [raising_state] snap_default "act" = .error "guard blew up"
    ∧ check_actionE [raising_state] snap_default "act" ≠ .ok .FORBIDDEN := by
  refine ⟨rfl, ?_⟩
  intro h
  rw [show check_actionE [raising_state] snap_default "act" =
      Except.error "guard blew up" from rfl] at h
  simp at h

/-- C9 (amended): when the first state in the chain that resolves the
action has a rule whose guard raises, the authorize call propagates that
exception unchanged (there is no handler in `is_allowed` or
`check_action`); in particular the call never returns Allowed — and never
Forbidden either: suppression of the fault is left to surrounding code. -/
theorem C9_guard_exception_propagates (d : StateDataE) (rest : List StateDataE)
    (app : App) (a : String) (spec : ActionSpecE) (e : String)
    (hf : a ∉ d.forbidden) (hs : d.actions a = some spec)
    (hr : spec.is_allowed app = .error e) :
    check_actionE (d :: rest) app a = .error e
    ∧ check_actionE (d :: rest) app a ≠ .ok .ALLOWED
    ∧ check_actionE (d :: rest) app a ≠ .ok .FORBIDDEN := by
  have h1 : check_actionE (d :: rest) app a = .error e := by
    simp [check_actionE, hf, hs, hr]
  exact ⟨h1, by rw [h1]; simp, by rw [h1]; simp⟩

/-- C9 witness: the propagation theorem applied to the concrete raising
state. -/
theorem C9_guard_exception_propagates_witness :
    check_actionE [raising_state] snap_default "act" = .error "guard blew up"
    ∧ check_actionE [raising_state] snap_default "act" ≠ .ok .ALLOWED :=
  have h := C9_guard_exception_propagates raising_state [] snap_default "act"
    ⟨some raising_guard⟩ "guard blew up" (by simp [raising_state]) rfl rfl
  ⟨h.1, h.2.1⟩

/-- C10: in INSERT vim mode the leader-key action is a complete no-op at
the dispatcher level — it returns before touching the pending flag, the
timer slot, the menu counter or the invocation ledger; the dispatcher
state is unchanged. -/
theorem C10_insert_leader_noop (d : Dispatcher) :
    action_leader_key .INSERT d = d := rfl

/-- A fired timer is spent: after `timer_fire` the timer is never live. -/
theorem timer_fire_not_live (m : Bool) (d : Dispatcher) :
    (timer_fire m d).timer_live = false := by
  unfold timer_fire
  cases hp : d.pending <;> cases m <;> simp [hp]

/-- C5: the leader two-phase protocol.  (0) the single-shot delay is
200 ms; (1) from Idle, pressing the leader key outside INSERT mode enters
Pending with a freshly scheduled live timer; (2) a key matching an
authorized leader command while Pending invokes the underlying action and
returns to Idle with the pending timer stopped AND cleared, without the
menu ever being shown; (3) if the timer fires first (no modal open), the
menu is shown exactly once — the counter increments by one and the spent
timer can never fire again; (4) the only events that leave Pending are the
timeout and a key-match dispatch; (5) the invariant "a live timer implies
Pending" is preserved by every step, so no state reached back in Idle
keeps a live pending timer. -/
theorem C5_leader_protocol (reg : List LeaderCommand) (app : App) :
    leader_timer_delay_ms = 200
    ∧ (∀ d : Dispatcher, app.vim_mode ≠ .INSERT → d.pending = false →
        (action_leader_key app.vim_mode d).pending = true
        ∧ (action_leader_key app.vim_mode d).timer_live = true
        ∧ (action_leader_key app.vim_mode d).timer_set = true)
    ∧ (∀ (d d2 : Dispatcher) (a : String), LStep reg app d (.keyMatch a) d2 →
        d2.pending = false ∧ d2.timer_live = false ∧ d2.timer_set = false
        ∧ d2.invoked = d.invoked ++ [a] ∧ d2.menu_shown = d.menu_shown)
    ∧ (∀ d d2 : Dispatcher, app.modal_active = false → d.pending = true →
        LStep reg app d .fire d2 →
        d2.menu_shown = d.menu_shown + 1 ∧ d2.timer_live = false
        ∧ d2.pending = false ∧ d2.menu_open = true)
    ∧ (∀ (d d2 : Dispatcher) (e : LEvent), LStep reg app d e d2 →
        d.pending = true → d2.pending = false →
        e = .fire ∨ ∃ a, e = .keyMatch a)
    ∧ (∀ (d d2 : Dispatcher) (e : LEvent), LStep reg app d e d2 →
        (d.timer_live = true → d.pending = true) →
        (d2.timer_live = true → d2.pending = true)) := by
  refine ⟨rfl, ?_, ?_, ?_, ?_, ?_⟩
  · intro d hvim _
    simp [action_leader_key, hvim]
  · intro d d2 a h
    cases h with
    | keyMatch a2 hp hchk =>
        simp [execute_leader_command, cancel_leader_pending]
  · intro d d2 hmod hpend h
    cases h with
    | fire hlive =>
        rw [hmod]
        simp [timer_fire, hpend]
  · intro d d2 e h hp hnp
    cases h with
    | press =>
        by_cases hv : app.vim_mode = .INSERT
        · simp only [action_leader_key, if_pos hv] at hnp
          rw [hnp] at hp
          exact Bool.noConfusion hp
        · simp [action_leader_key, hv] at hnp
    | fire hlive => exact Or.inl rfl
    | keyMatch a hp2 hchk => exact Or.inr ⟨a, rfl⟩
    | dismiss r hmenu hpf =>
        rw [hpf] at hp
        exact Bool.noConfusion hp
  · intro d d2 e h hinv
    cases h with
    | press =>
        by_cases hv : app.vim_mode = .INSERT
        · simp only [action_leader_key, if_pos hv]
          exact hinv
        · simp [action_leader_key, hv]
    | fire hlive =>
        intro h2
        rw [timer_fire_not_live] at h2
        exact Bool.noConfusion h2
    | keyMatch a hp2 hchk =>
        intro h2
        exact Bool.noConfusion h2
    | dismiss r hmenu hpf =>
        cases r with
        | some a =>
            intro h2
            exact Bool.noConfusion h2
        | none =>
            intro h2
            exact hinv h2

/-- C5 witness: one concrete fast-path run — pressing the leader key in
NORMAL mode from the initial dispatcher enters Pending with a live timer,
and a matching authorized key returns to Idle with the timer stopped and
cleared. -/
theorem C5_leader_protocol_witness :
    ((action_leader_key snap_normal.vim_mode dispatcher_init).pending = true
      ∧ (action_leader_key snap_normal.vim_mode dispatcher_init).timer_live = true
      ∧ (action_leader_key snap_normal.vim_mode dispatcher_init).timer_set = true)
    ∧ ((execute_leader_command "toggle_explorer"
          (action_leader_key snap_normal.vim_mode dispatcher_init)).pending = false
      ∧ (execute_leader_command "toggle_explorer"
          (action_leader_key snap_normal.vim_mode dispatcher_init)).timer_live = false
      ∧ (execute_leader_command "toggle_explorer"
          (action_leader_key snap_normal.vim_mode dispatcher_init)).timer_set = false) := by
  have h := C5_leader_protocol
    [⟨"e", "toggle_explorer", "Toggle Explorer", "View", none⟩] snap_normal
  refine ⟨h.2.1 dispatcher_init (by decide) rfl, ?_⟩
  have hstep : LStep [⟨"e", "toggle_explorer", "Toggle Explorer", "View", none⟩]
      snap_normal (action_leader_key snap_normal.vim_mode dispatcher_init)
      (.keyMatch "toggle_explorer")
      (execute_leader_command "toggle_explorer"
        (action_leader_key snap_normal.vim_mode dispatcher_init)) :=
    LStep.keyMatch _ _ rfl (by decide)
  have h3 := h.2.2.1 _ _ _ hstep
  exact ⟨h3.1, h3.2.1, h3.2.2.1⟩

end Sqlit
